import Mathlib

/-!
Verification of the `ray_velda` node provider
(`src/ray_velda/node_provider.py`, class `VeldaNodeProvider`).

The Python class keeps two dictionaries (`self.nodes`, mapping session
identifiers to the session records returned by `velda ls -o json`, and
`self._internal_ip_cache`, mapping internal IP addresses back to session
identifiers) and shells out to the `vrun` / `velda` CLIs.  Dictionaries are
embedded as association lists with Python-dict semantics (assignment keeps
the position of an existing key and replaces its value, otherwise appends);
each external CLI invocation is modelled by an explicit oracle parameter
describing its outcome (exit status and captured standard output), since the
provider only ever observes those.  A raised `CalledProcessError` /
`json.JSONDecodeError` is modelled by returning the provider state that the
exception leaves behind together with an error value.

Fields of the class that no modelled operation ever reads
(`provider_config`, `node_prefix` — used only by the never-called
`_generate_node_id` — and the never-read `node_tags_cache`) are omitted
from the state record.  The `RLock` is dropped: every modelled operation is
a single sequential function, which is exactly what the lock enforces.
-/

namespace RayVelda

/-- The tag key imported from `ray.autoscaler.tags`; its exact text plays no
role in the development, only its identity. -/
def TAG_RAY_NODE_KIND : String := "ray-node-type"

/-- One entry of the `sessions` list parsed from `velda ls -o json`: the
fields `node_provider.py` reads are `session_id`, the `tags` object and the
optional `internal_ip_address`.  An entry with no `tags` field is modelled by
an empty tag list (Python reads `node.get("tags", {})`); a missing or JSON
`null` address is `none`. -/
structure Session where
  session_id : String
  tags : List (String × String)
  internal_ip_address : Option String
deriving Repr, DecidableEq

/-- Python dict assignment `d[k] = v` on an association list: the value at
the first occurrence of `k` is replaced in place, otherwise `(k, v)` is
appended at the end. -/
def dictInsert {V : Type} : List (String × V) → String → V → List (String × V)
  | [], k, v => [(k, v)]
  | q :: rest, k, v => if q.1 == k then (k, v) :: rest else q :: dictInsert rest k v

/-- Python `d.pop(k, None)`: the entry for `k`, if any, is removed. -/
def dictPop {V : Type} (m : List (String × V)) (k : String) : List (String × V) :=
  m.filter (fun q => q.1 != k)

/-- Python `k in d`. -/
def dictContains {V : Type} (m : List (String × V)) (k : String) : Bool :=
  m.any (fun q => q.1 == k)

/-- The subset of `provider_config` that `VeldaNodeProvider` reads for the
operations modelled here: `provider_config.get("pool", "shell")`. -/
structure ProviderConfig where
  pool : Option String
deriving Repr, DecidableEq

/-- The mutable state of a `VeldaNodeProvider` instance together with the
configuration fixed by `__init__`: `self.pool`, `self.cluster_name`
(already prefixed with `"ray-"`), `self.nodes` and
`self._internal_ip_cache`. -/
structure VeldaNodeProvider where
  pool : String
  cluster_name : String
  nodes : List (String × Session)
  internal_ip_cache : List (String × String)
deriving Repr, DecidableEq

/-- Python `VeldaNodeProvider.__init__(provider_config, cluster_name)`. -/
def VeldaNodeProvider.init (provider_config : ProviderConfig) (cluster_name : String) :
    VeldaNodeProvider :=
  { pool := provider_config.pool.getD "shell"
    cluster_name := "ray-" ++ cluster_name
    nodes := []
    internal_ip_cache := [] }

/-- Python `','.join(f"{k}={v}" for k, v in tags.items())`. -/
def mergedTags (tags : List (String × String)) : String :=
  String.intercalate "," (tags.map (fun kv => kv.1 ++ "=" ++ kv.2))

/-- The argument vector `create_node` builds for one `vrun` invocation:
the fixed flags, the merged tag string, the `-s <cluster_name>` pin added
exactly when `tags.get(TAG_RAY_NODE_KIND, None) == "head"`, and the startup
command. -/
def buildCreateCmd (pool cluster_name : String) (tags : List (String × String)) : List String :=
  ["vrun", "-P", pool, "--new-session", "--keep-alive", "--tty=no",
      "--tags=" ++ mergedTags tags, "-q"]
    ++ (if tags.lookup TAG_RAY_NODE_KIND == some "head" then ["-s", cluster_name] else [])
    ++ ["sh", "-c", "hostname; sleep inf&"]

/-- The record `dict(session_id=session_id)` that `create_node` stores in its
result dictionary. -/
structure CreatedRecord where
  session_id : String
deriving Repr, DecidableEq

/-- Python `VeldaNodeProvider.create_node(node_config, tags, count)`.  The external
effect of the `i`-th `vrun` invocation is modelled by the oracle `stdout`,
giving the standard output captured from that (successful) call; the loop
body strips it and stores `dict(session_id=...)` under the stripped
identifier.  Returned: the provider (whose state the method never touches),
the `result` dictionary, and the list of argument vectors issued — one per
loop iteration.  `node_config` is accepted and ignored, as in the source. -/
def VeldaNodeProvider.create_node (p : VeldaNodeProvider)
    (node_config : List (String × String)) (tags : List (String × String))
    (count : Nat) (stdout : Nat → String) :
    VeldaNodeProvider × List (String × CreatedRecord) × List (List String) :=
  (p,
   (List.range count).foldl
     (fun m i => dictInsert m ((stdout i).trim) ⟨(stdout i).trim⟩) [],
   (List.range count).map (fun _ => buildCreateCmd p.pool p.cluster_name tags))

/-- Python `VeldaNodeProvider.terminate_node(node_id)`.  `killOk` models the exit
status of `velda kill --session-id node_id`; with `check=True` a non-zero
exit raises before the cache is touched, modelled by returning the untouched
provider together with `some node_id` as the propagated error.  On success
the identifier is popped from `self.nodes`. -/
def VeldaNodeProvider.terminate_node (p : VeldaNodeProvider) (killOk : Bool)
    (node_id : String) : VeldaNodeProvider × Option String :=
  if killOk then ({ p with nodes := dictPop p.nodes node_id }, none)
  else (p, some node_id)

/-- Python `VeldaNodeProvider.terminate_nodes(node_ids)`: a plain `for` loop calling
`terminate_node`; an exception raised by one call aborts the loop and
propagates, carrying the failing identifier. -/
def VeldaNodeProvider.terminate_nodes :
    VeldaNodeProvider → (String → Bool) → List String → VeldaNodeProvider × Option String
  | p, _, [] => (p, none)
  | p, killOk, node_id :: rest =>
    match p.terminate_node (killOk node_id) node_id with
    | (p', none) => VeldaNodeProvider.terminate_nodes p' killOk rest
    | (p', some e) => (p', some e)

/-- One iteration of the `for node in node_list['sessions']` loop of
`non_terminated_nodes`, acting on the `(nodes_map, ip_cache)` accumulator:
entries whose tags lack `TAG_RAY_NODE_KIND` are skipped entirely; otherwise
the record is stored under its `session_id`, and — when the entry carries a
truthy (non-empty) `internal_ip_address` — the address is mapped back to the
identifier. -/
def refreshStep (acc : List (String × Session) × List (String × String)) (node : Session) :
    List (String × Session) × List (String × String) :=
  if dictContains node.tags TAG_RAY_NODE_KIND then
    (dictInsert acc.1 node.session_id node,
     match node.internal_ip_address with
     | some ip => if ip == "" then acc.2 else dictInsert acc.2 ip node.session_id
     | none => acc.2)
  else acc

/-- The `(nodes_map, ip_cache)` pair built by `non_terminated_nodes` from a
parsed listing. -/
def refreshMaps (sessions : List Session) :
    List (String × Session) × List (String × String) :=
  sessions.foldl refreshStep ([], [])

/-- The `matching_nodes` loop of `non_terminated_nodes`: the keys of the
(fresh) `self.nodes` whose tags satisfy
`all(tags.get(k) == v for k, v in tag_filters.items())`. -/
def matchingOf (nodes : List (String × Session)) (tag_filters : List (String × String)) :
    List String :=
  (nodes.filter (fun q => tag_filters.all (fun kv => q.2.tags.lookup kv.1 == some kv.2))).map
    Prod.fst

/-- Python `VeldaNodeProvider.non_terminated_nodes(tag_filters)`.  `ls` models the
combined outcome of `subprocess.run(["velda", "ls", "-o", "json"], check=True)`
and `json.loads`: `none` covers both a non-zero exit and malformed output,
either of which raises before any state is touched; `some sessions` is the
parsed `sessions` list.  On success both caches are replaced wholesale and
the filtered identifiers are returned. -/
def VeldaNodeProvider.non_terminated_nodes (p : VeldaNodeProvider)
    (ls : Option (List Session)) (tag_filters : List (String × String)) :
    VeldaNodeProvider × Except String (List String) :=
  match ls with
  | none => (p, Except.error "velda ls failed")
  | some sessions =>
    ({ p with nodes := (refreshMaps sessions).1,
              internal_ip_cache := (refreshMaps sessions).2 },
     Except.ok (matchingOf (refreshMaps sessions).1 tag_filters))

/-- Python `VeldaNodeProvider.is_running(node_id)`: `node_id in self.nodes`. -/
def VeldaNodeProvider.is_running (p : VeldaNodeProvider) (node_id : String) : Bool :=
  dictContains p.nodes node_id

/-- Python `VeldaNodeProvider.is_terminated(node_id)`: `node_id not in self.nodes`. -/
def VeldaNodeProvider.is_terminated (p : VeldaNodeProvider) (node_id : String) : Bool :=
  !(dictContains p.nodes node_id)

/-- An argument vector carries a `-s name` session pin: some adjacent pair of
arguments is `-s` followed by `name`. -/
def hasPin : List String → String → Bool
  | a :: b :: rest, name => (a == "-s" && b == name) || hasPin (b :: rest) name
  | _, _ => false

/-- The session entries of a listing that end up stored under key `s` in the
rebuilt `nodes_map`: identifier `s` and a `TAG_RAY_NODE_KIND` tag. -/
def nmPred (s : String) (n : Session) : Bool :=
  n.session_id == s && dictContains n.tags TAG_RAY_NODE_KIND

/-- The session entries of a listing that end up mapping address `a` to their
identifier in the rebuilt `ip_cache`: a `TAG_RAY_NODE_KIND` tag and a truthy
`internal_ip_address` equal to `a`. -/
def icPred (a : String) (n : Session) : Bool :=
  dictContains n.tags TAG_RAY_NODE_KIND &&
    (match n.internal_ip_address with
     | some ip => !(ip == "") && ip == a
     | none => false)

/-! ### Association-list lemmas -/

theorem dictContains_eq_isSome_lookup {V : Type} (m : List (String × V)) (k : String) :
    dictContains m k = (m.lookup k).isSome := by
  induction m with
  | nil => rfl
  | cons q rest ih =>
    obtain ⟨a, b⟩ := q
    by_cases h : k = a
    · subst h
      simp [dictContains, List.lookup]
    · have h1 : (a == k) = false := by simp [h, Ne.symm h]
      have h2 : (k == a) = false := by simp [h]
      simp [dictContains, List.lookup, h1, h2] at ih ⊢
      exact ih

theorem lookup_dictInsert_self {V : Type} (m : List (String × V)) (k : String) (v : V) :
    (dictInsert m k v).lookup k = some v := by
  induction m with
  | nil => simp [dictInsert, List.lookup]
  | cons q rest ih =>
    by_cases h : q.1 = k
    · simp [dictInsert, h, List.lookup]
    · have h1 : (q.1 == k) = false := by simp [h]
      have h2 : (k == q.1) = false := by simp [Ne.symm h]
      simp [dictInsert, h1, List.lookup, h2, ih]

theorem lookup_dictInsert_ne {V : Type} (m : List (String × V)) (k : String) (v : V)
    (k' : String) (h : k' ≠ k) : (dictInsert m k v).lookup k' = m.lookup k' := by
  have h0 : (k' == k) = false := by simp [h]
  induction m with
  | nil => simp [dictInsert, List.lookup, h0]
  | cons q rest ih =>
    by_cases hq : q.1 = k
    · subst hq
      have h2 : (k' == q.1) = false := by simp [h]
      simp [dictInsert, List.lookup, h2]
    · have h1 : (q.1 == k) = false := by simp [hq]
      by_cases hk' : k' = q.1
      · subst hk'
        simp [dictInsert, h1, List.lookup]
      · have h3 : (k' == q.1) = false := by simp [hk']
        simp [dictInsert, h1, List.lookup, h3, ih]

theorem dictContains_iff_mem_keys {V : Type} (m : List (String × V)) (k : String) :
    dictContains m k = true ↔ k ∈ m.map Prod.fst := by
  induction m with
  | nil => simp [dictContains]
  | cons q rest ih =>
    by_cases h : q.1 = k
    · simp [dictContains, h]
    · have h1 : (q.1 == k) = false := by simp [h]
      simp [dictContains, h1, Ne.symm h]

theorem keys_dictInsert {V : Type} (m : List (String × V)) (k : String) (v : V) :
    (dictInsert m k v).map Prod.fst =
      if dictContains m k then m.map Prod.fst else m.map Prod.fst ++ [k] := by
  induction m with
  | nil => simp [dictInsert, dictContains]
  | cons q rest ih =>
    by_cases h : q.1 = k
    · simp [dictInsert, dictContains, h]
    · have h1 : (q.1 == k) = false := by simp [h]
      have e1 : dictInsert (q :: rest) k v = q :: dictInsert rest k v := by
        simp [dictInsert, h1]
      have e2 : dictContains (q :: rest) k = dictContains rest k := by
        simp [dictContains, h1]
      rw [e1, e2, List.map_cons, ih]
      by_cases hc : dictContains rest k
      · simp [hc]
      · simp [hc]

theorem nodupKeys_dictInsert {V : Type} (m : List (String × V)) (k : String) (v : V)
    (h : (m.map Prod.fst).Nodup) : ((dictInsert m k v).map Prod.fst).Nodup := by
  rw [keys_dictInsert]
  by_cases hc : dictContains m k
  · simpa [hc] using h
  · have hk : k ∉ m.map Prod.fst := fun hm =>
      hc ((dictContains_iff_mem_keys m k).mpr hm)
    simp [hc, List.nodup_append, h, hk]

theorem mem_of_lookup_eq_some {V : Type} (m : List (String × V)) (k : String) (v : V)
    (h : m.lookup k = some v) : (k, v) ∈ m := by
  induction m with
  | nil => simp [List.lookup] at h
  | cons q rest ih =>
    obtain ⟨a, b⟩ := q
    by_cases hk : k = a
    · subst hk
      simp [List.lookup] at h
      simp [h]
    · have h2 : (k == a) = false := by simp [hk]
      simp [List.lookup, h2] at h
      exact List.mem_cons_of_mem _ (ih h)

theorem lookup_of_mem_nodup {V : Type} (m : List (String × V)) (k : String) (v : V)
    (hn : (m.map Prod.fst).Nodup) (h : (k, v) ∈ m) : m.lookup k = some v := by
  induction m with
  | nil => simp at h
  | cons q rest ih =>
    obtain ⟨a, b⟩ := q
    simp at hn
    rcases List.mem_cons.mp h with h | h
    · obtain ⟨h1, h2⟩ := Prod.mk.injEq .. ▸ h
      subst h1
      subst h2
      simp [List.lookup]
    · have hka : k ≠ a := fun hk => hn.1 v (hk ▸ h)
      have h2 : (k == a) = false := by simp [hka]
      simp [List.lookup, h2]
      exact ih hn.2 h

theorem dictPop_of_lookup_none {V : Type} (m : List (String × V)) (k : String)
    (h : m.lookup k = none) : dictPop m k = m := by
  induction m with
  | nil => rfl
  | cons q rest ih =>
    obtain ⟨a, b⟩ := q
    by_cases hk : k = a
    · subst hk
      simp [List.lookup] at h
    · have h2 : (k == a) = false := by simp [hk]
      have h3 : (a != k) = true := by simp [Ne.symm hk]
      simp [List.lookup, h2] at h
      simp [dictPop, List.filter, h3] at ih ⊢
      exact ih h

/-! ### Characterization of the refresh fold -/

theorem refreshStep_nm_lookup (acc : List (String × Session) × List (String × String))
    (n : Session) (s : String) :
    (refreshStep acc n).1.lookup s = (([n].find? (nmPred s)).or (acc.1.lookup s)) := by
  by_cases hk : dictContains n.tags TAG_RAY_NODE_KIND
  · by_cases hs : n.session_id = s
    · subst hs
      simp [refreshStep, hk, List.find?, nmPred, lookup_dictInsert_self, Option.or]
    · have h1 : (n.session_id == s) = false := by simp [hs]
      simp [refreshStep, hk, List.find?, nmPred, h1,
        lookup_dictInsert_ne acc.1 n.session_id n s (Ne.symm hs), Option.or]
  · have h1 : dictContains n.tags TAG_RAY_NODE_KIND = false := by
      simpa using hk
    simp [refreshStep, h1, List.find?, nmPred, Option.or]

theorem refreshStep_ic_lookup (acc : List (String × Session) × List (String × String))
    (n : Session) (a : String) :
    (refreshStep acc n).2.lookup a =
      ((([n].find? (icPred a)).map Session.session_id).or (acc.2.lookup a)) := by
  by_cases hk : dictContains n.tags TAG_RAY_NODE_KIND
  · match hip : n.internal_ip_address with
    | none => simp [refreshStep, hk, hip, List.find?, icPred, Option.or]
    | some ip =>
      by_cases he : ip = ""
      · simp [refreshStep, hk, hip, he, List.find?, icPred, Option.or]
      · have h1 : (ip == "") = false := by simp [he]
        by_cases ha : ip = a
        · subst ha
          simp [refreshStep, hk, hip, h1, List.find?, icPred,
            lookup_dictInsert_self, Option.or]
        · have h2 : (ip == a) = false := by simp [ha]
          simp [refreshStep, hk, hip, h1, h2, List.find?, icPred,
            lookup_dictInsert_ne acc.2 ip n.session_id a (Ne.symm ha), Option.or]
  · have h1 : dictContains n.tags TAG_RAY_NODE_KIND = false := by
      simpa using hk
    simp [refreshStep, h1, List.find?, icPred, Option.or]

theorem foldl_refreshStep_nm_lookup (l : List Session)
    (acc : List (String × Session) × List (String × String)) (s : String) :
    (l.foldl refreshStep acc).1.lookup s =
      ((l.reverse.find? (nmPred s)).or (acc.1.lookup s)) := by
  induction l generalizing acc with
  | nil => simp
  | cons n rest ih =>
    rw [List.foldl_cons, ih, List.reverse_cons, List.find?_append,
      Option.or_assoc, refreshStep_nm_lookup]

theorem option_or_map {α β : Type} (f : α → β) (a b : Option α) :
    (a.or b).map f = ((a.map f).or (b.map f)) := by
  cases a <;> simp [Option.or]

theorem foldl_refreshStep_ic_lookup (l : List Session)
    (acc : List (String × Session) × List (String × String)) (a : String) :
    (l.foldl refreshStep acc).2.lookup a =
      (((l.reverse.find? (icPred a)).map Session.session_id).or (acc.2.lookup a)) := by
  induction l generalizing acc with
  | nil => simp
  | cons n rest ih =>
    rw [List.foldl_cons, ih, List.reverse_cons, List.find?_append, option_or_map,
      Option.or_assoc, refreshStep_ic_lookup]

theorem refreshMaps_nm_lookup (l : List Session) (s : String) :
    (refreshMaps l).1.lookup s = l.reverse.find? (nmPred s) := by
  rw [refreshMaps, foldl_refreshStep_nm_lookup]
  simp [List.lookup]

theorem refreshMaps_ic_lookup (l : List Session) (a : String) :
    (refreshMaps l).2.lookup a = (l.reverse.find? (icPred a)).map Session.session_id := by
  rw [refreshMaps, foldl_refreshStep_ic_lookup]
  simp [List.lookup]

theorem foldl_refreshStep_nm_nodupKeys (l : List Session)
    (acc : List (String × Session) × List (String × String))
    (h : (acc.1.map Prod.fst).Nodup) :
    ((l.foldl refreshStep acc).1.map Prod.fst).Nodup := by
  induction l generalizing acc with
  | nil => exact h
  | cons n rest ih =>
    rw [List.foldl_cons]
    refine ih _ ?_
    by_cases hk : dictContains n.tags TAG_RAY_NODE_KIND
    · simpa [refreshStep, hk] using nodupKeys_dictInsert acc.1 n.session_id n h
    · have h1 : dictContains n.tags TAG_RAY_NODE_KIND = false := by simpa using hk
      simpa [refreshStep, h1] using h

theorem refreshMaps_nm_nodupKeys (l : List Session) :
    ((refreshMaps l).1.map Prod.fst).Nodup :=
  foldl_refreshStep_nm_nodupKeys l ([], []) (by simp)

/-! ### Lemmas about the create_node result dictionary -/

theorem dictInsert_length_le {V : Type} (m : List (String × V)) (k : String) (v : V) :
    (dictInsert m k v).length ≤ m.length + 1 := by
  induction m with
  | nil => simp [dictInsert]
  | cons q rest ih =>
    by_cases h : (q.1 == k) = true
    · simp [dictInsert, h]
    · have h1 : (q.1 == k) = false := by simpa using h
      simp [dictInsert, h1]
      omega

theorem dictInsert_length_of_not_contains {V : Type} (m : List (String × V)) (k : String)
    (v : V) (h : dictContains m k = false) : (dictInsert m k v).length = m.length + 1 := by
  have hkeys := keys_dictInsert m k v
  rw [h] at hkeys
  simp at hkeys
  have := congrArg List.length hkeys
  simpa using this

theorem mem_dictInsert_elim {V : Type} (m : List (String × V)) (k : String) (v : V)
    (q : String × V) (hq : q ∈ dictInsert m k v) : q ∈ m ∨ q = (k, v) := by
  induction m with
  | nil => simpa [dictInsert] using hq
  | cons r rest ih =>
    by_cases h : (r.1 == k) = true
    · simp [dictInsert, h] at hq
      rcases hq with hq | hq
      · exact Or.inr hq
      · exact Or.inl (List.mem_cons_of_mem _ hq)
    · have h1 : (r.1 == k) = false := by simpa using h
      simp [dictInsert, h1] at hq
      rcases hq with hq | hq
      · exact Or.inl (by simp [hq])
      · rcases ih hq with hq' | hq'
        · exact Or.inl (List.mem_cons_of_mem _ hq')
        · exact Or.inr hq'

theorem createFold_entries (sids : List String) (acc : List (String × CreatedRecord))
    (hacc : ∀ q ∈ acc, q.2.session_id = q.1) :
    ∀ q ∈ sids.foldl (fun m s => dictInsert m s ⟨s⟩) acc, q.2.session_id = q.1 := by
  induction sids generalizing acc with
  | nil => exact hacc
  | cons s rest ih =>
    rw [List.foldl_cons]
    refine ih _ fun q hq => ?_
    rcases mem_dictInsert_elim acc s ⟨s⟩ q hq with h | h
    · exact hacc q h
    · simp [h]

theorem createFold_length_le (sids : List String) (acc : List (String × CreatedRecord)) :
    (sids.foldl (fun m s => dictInsert m s ⟨s⟩) acc).length ≤ acc.length + sids.length := by
  induction sids generalizing acc with
  | nil => simp
  | cons s rest ih =>
    rw [List.foldl_cons]
    calc (rest.foldl (fun m s => dictInsert m s ⟨s⟩) (dictInsert acc s ⟨s⟩)).length
        ≤ (dictInsert acc s ⟨s⟩).length + rest.length := ih _
      _ ≤ (acc.length + 1) + rest.length := by
          exact Nat.add_le_add_right (dictInsert_length_le acc s ⟨s⟩) _
      _ = acc.length + (rest.length + 1) := by omega
      _ = acc.length + (s :: rest).length := by simp

theorem createFold_length_eq (sids : List String) (acc : List (String × CreatedRecord))
    (hnd : sids.Nodup) (hdisj : ∀ s ∈ sids, dictContains acc s = false) :
    (sids.foldl (fun m s => dictInsert m s ⟨s⟩) acc).length = acc.length + sids.length := by
  induction sids generalizing acc with
  | nil => simp
  | cons s rest ih =>
    rw [List.foldl_cons]
    have hfresh : dictContains acc s = false := hdisj s (by simp)
    have hrest : ∀ s' ∈ rest, dictContains (dictInsert acc s ⟨s⟩) s' = false := by
      intro s' hs'
      have hne : s' ≠ s := by
        intro he
        subst he
        exact (List.nodup_cons.mp hnd).1 hs'
      have hkeys := keys_dictInsert acc s (⟨s⟩ : CreatedRecord)
      rw [hfresh] at hkeys
      simp at hkeys
      have : s' ∉ (dictInsert acc s ⟨s⟩).map Prod.fst := by
        rw [hkeys]
        intro hmem
        rcases List.mem_append.mp hmem with hmem | hmem
        · exact absurd ((dictContains_iff_mem_keys acc s').mpr hmem)
            (by simp [hdisj s' (by simp [hs'])])
        · simp at hmem
          exact hne hmem
      by_contra hc
      have hc' : dictContains (dictInsert acc s ⟨s⟩) s' = true := by
        simpa using hc
      exact this ((dictContains_iff_mem_keys _ s').mp hc')
    rw [ih (dictInsert acc s ⟨s⟩) (List.nodup_cons.mp hnd).2 hrest,
      dictInsert_length_of_not_contains acc s ⟨s⟩ hfresh]
    simp
    omega

/-! ### The `-s` pin in the create command line -/

theorem newsession_beq_pin (c : String) : ("--new-session" == "ray-" ++ c) = false := by
  rw [beq_eq_false_iff_ne]
  intro h
  have h2 := congrArg String.data h
  rw [show ("ray-" ++ c).data = 'r' :: 'a' :: 'y' :: '-' :: c.data from rfl] at h2
  rw [show "--new-session".data = ['-', '-', 'n', 'e', 'w', '-', 's', 'e', 's', 's', 'i', 'o', 'n']
    from by decide] at h2
  simp only [List.cons.injEq] at h2
  exact absurd h2.1 (by decide)

theorem q_beq_pin (c : String) : ("-q" == "ray-" ++ c) = false := by
  rw [beq_eq_false_iff_ne]
  intro h
  have h2 := congrArg String.data h
  rw [show ("ray-" ++ c).data = 'r' :: 'a' :: 'y' :: '-' :: c.data from rfl] at h2
  rw [show "-q".data = ['-', 'q'] from by decide] at h2
  simp only [List.cons.injEq] at h2
  exact absurd h2.1 (by decide)

theorem hasPin_buildCreateCmd (pool c : String) (tags : List (String × String)) :
    hasPin (buildCreateCmd pool ("ray-" ++ c) tags) ("ray-" ++ c) =
      (tags.lookup TAG_RAY_NODE_KIND == some "head") := by
  by_cases h : (tags.lookup TAG_RAY_NODE_KIND == some "head") = true
  · simp [buildCreateCmd, h, hasPin, newsession_beq_pin, q_beq_pin]
  · have h1 : (tags.lookup TAG_RAY_NODE_KIND == some "head") = false := by simpa using h
    simp [buildCreateCmd, h1, hasPin, newsession_beq_pin, q_beq_pin]

/-! ### The terminate loop -/

theorem terminate_node_ip_cache (p : VeldaNodeProvider) (killOk : Bool) (node_id : String) :
    (p.terminate_node killOk node_id).1.internal_ip_cache = p.internal_ip_cache := by
  cases killOk <;> rfl

/-- Claim C1 (amended): batch termination short-circuits at the first failing
kill.  Identifiers before the failing one are killed and removed from the
cache one by one; the first failure propagates as an error carrying the
failing identifier, and that identifier and all later ones are not attempted
and stay in the cache (the final state is the fold of `pop` over the
successful leading segment only). -/
theorem terminate_nodes_ok_then_fail (pre : List String) (p : VeldaNodeProvider)
    (killOk : String → Bool) (b : String) (post : List String)
    (hpre : ∀ id ∈ pre, killOk id = true) (hb : killOk b = false) :
    VeldaNodeProvider.terminate_nodes p killOk (pre ++ b :: post) =
      (pre.foldl (fun q id => { q with nodes := dictPop q.nodes id }) p, some b) := by
  induction pre generalizing p with
  | nil =>
    simp [VeldaNodeProvider.terminate_nodes, VeldaNodeProvider.terminate_node, hb]
  | cons a rest ih =>
    have ha : killOk a = true := hpre a (by simp)
    rw [List.cons_append]
    simp only [VeldaNodeProvider.terminate_nodes, VeldaNodeProvider.terminate_node, ha,
      if_true]
    exact ih _ fun id hid => hpre id (by simp [hid])

/-! ### Claim theorems -/

/-- Claim C6: for every node identifier and every state of the cache,
`is_running` returns the logical negation of `is_terminated`; an identifier is
reported running exactly when it is present in the primary mapping `nodes`. -/
theorem is_running_not_is_terminated (p : VeldaNodeProvider) (node_id : String) :
    p.is_running node_id = !(p.is_terminated node_id) ∧
      (p.is_running node_id = true ↔ (p.nodes.lookup node_id).isSome) := by
  refine ⟨?_, ?_⟩
  · simp [VeldaNodeProvider.is_running, VeldaNodeProvider.is_terminated]
  · rw [VeldaNodeProvider.is_running, dictContains_eq_isSome_lookup]

/-- Claim C8: `create_node` leaves the snapshot (the whole provider state:
primary mapping, reverse-address index and configuration) unchanged; new
sessions surface in the cache only via a later refresh. -/
theorem create_node_preserves_snapshot (p : VeldaNodeProvider)
    (node_config tags : List (String × String)) (count : Nat) (stdout : Nat → String) :
    (p.create_node node_config tags count stdout).1 = p := rfl

/-- Claim C4: when the external listing fails (non-zero exit or unparsable
output, both modelled by `ls = none`) `non_terminated_nodes` propagates an
error and leaves the previous snapshot entirely unchanged; on a successful
listing both caches are replaced by the maps rebuilt from that listing. -/
theorem non_terminated_nodes_failure_keeps_snapshot (p : VeldaNodeProvider)
    (tag_filters : List (String × String)) :
    p.non_terminated_nodes none tag_filters = (p, Except.error "velda ls failed") ∧
      ∀ sessions,
        (p.non_terminated_nodes (some sessions) tag_filters).1.nodes =
            (refreshMaps sessions).1 ∧
          (p.non_terminated_nodes (some sessions) tag_filters).1.internal_ip_cache =
            (refreshMaps sessions).2 :=
  ⟨rfl, fun _ => ⟨rfl, rfl⟩⟩

/-- Claim C7: provided the external kill succeeds, `terminate_node` on an
identifier absent from the primary mapping raises no error and leaves the
whole cache unchanged. -/
theorem terminate_node_absent_noop (p : VeldaNodeProvider) (node_id : String)
    (h : p.nodes.lookup node_id = none) :
    p.terminate_node true node_id = (p, none) := by
  simp [VeldaNodeProvider.terminate_node, dictPop_of_lookup_none p.nodes node_id h]

/-- Witness for claim C7 at a concrete cache holding only session `a`:
terminating the absent identifier `b` succeeds and changes nothing. -/
theorem terminate_node_absent_noop_witness :
    (⟨"shell", "ray-demo",
        [("a", ⟨"a", [(TAG_RAY_NODE_KIND, "worker")], none⟩)], []⟩ :
      VeldaNodeProvider).terminate_node true "b" =
      (⟨"shell", "ray-demo",
        [("a", ⟨"a", [(TAG_RAY_NODE_KIND, "worker")], none⟩)], []⟩, none) :=
  terminate_node_absent_noop _ "b" (by decide)

/-- Claim C5: for a provider configured with cluster name `cluster_name`,
every argument vector issued by `create_node` carries the adjacent pair
`-s ray-<cluster_name>` exactly when the tag mapping assigns `"head"` to the
node-kind tag; otherwise no such pinning pair occurs anywhere in the vector. -/
theorem create_node_pins_head (provider_config : ProviderConfig) (cluster_name : String)
    (node_config tags : List (String × String)) (count : Nat) (stdout : Nat → String)
    (cmd : List String)
    (hc : cmd ∈ ((VeldaNodeProvider.init provider_config cluster_name).create_node
      node_config tags count stdout).2.2) :
    hasPin cmd ("ray-" ++ cluster_name) = (tags.lookup TAG_RAY_NODE_KIND == some "head") := by
  rcases List.mem_map.mp hc with ⟨i, hi, hbc⟩
  rw [← hbc]
  exact hasPin_buildCreateCmd _ cluster_name tags

/-- Witness for claim C5: cluster name `demo`, a head-tagged creation — the
issued command pins the session to `ray-demo`. -/
theorem create_node_pins_head_witness :
    hasPin (buildCreateCmd "shell" ("ray-" ++ "demo") [(TAG_RAY_NODE_KIND, "head")])
        ("ray-" ++ "demo") =
      ([(TAG_RAY_NODE_KIND, "head")].lookup TAG_RAY_NODE_KIND == some "head") :=
  create_node_pins_head ⟨none⟩ "demo" [] [(TAG_RAY_NODE_KIND, "head")] 1 (fun _ => "s1")
    (buildCreateCmd "shell" ("ray-" ++ "demo") [(TAG_RAY_NODE_KIND, "head")])
    (List.mem_map.mpr ⟨0, by simp, rfl⟩)

/-- Claim C10: `create_node` issues exactly `count` external invocations (none
when `count = 0`, with an empty result); the result dictionary has at most
`count` entries, each key equal to the `session_id` field of its record, and
exactly `count` entries when the stripped identifiers are pairwise distinct. -/
theorem create_node_result_shape (p : VeldaNodeProvider)
    (node_config tags : List (String × String)) (count : Nat) (stdout : Nat → String) :
    ((p.create_node node_config tags count stdout).2.2.length = count) ∧
      (count = 0 → (p.create_node node_config tags count stdout).2 = ([], [])) ∧
      ((p.create_node node_config tags count stdout).2.1.length ≤ count) ∧
      (∀ q ∈ (p.create_node node_config tags count stdout).2.1, q.2.session_id = q.1) ∧
      (((List.range count).map (fun i => (stdout i).trim)).Nodup →
        (p.create_node node_config tags count stdout).2.1.length = count) := by
  have hfold : (p.create_node node_config tags count stdout).2.1 =
      ((List.range count).map (fun i => (stdout i).trim)).foldl
        (fun m s => dictInsert m s ⟨s⟩) [] := by
    rw [List.foldl_map]
    rfl
  refine ⟨by simp [VeldaNodeProvider.create_node], ?_, ?_, ?_, ?_⟩
  · intro h
    subst h
    rfl
  · rw [hfold]
    have := createFold_length_le ((List.range count).map (fun i => (stdout i).trim)) []
    simpa using this
  · rw [hfold]
    exact createFold_entries _ [] (by simp)
  · intro hnd
    rw [hfold]
    have := createFold_length_eq ((List.range count).map (fun i => (stdout i).trim)) []
      hnd (by intro s hs; rfl)
    simpa using this

/-- Witness for claim C10: with `count = 0` no command is issued and the
result is empty; with `count = 1` (stripped outputs trivially distinct) the
result has exactly one entry. -/
theorem create_node_result_shape_witness :
    ((⟨"shell", "ray-demo", [], []⟩ : VeldaNodeProvider).create_node [] [] 0
        (fun _ => "s1")).2 = ([], []) ∧
      ((⟨"shell", "ray-demo", [], []⟩ : VeldaNodeProvider).create_node [] [] 1
        (fun _ => "s1")).2.1.length = 1 :=
  ⟨(create_node_result_shape ⟨"shell", "ray-demo", [], []⟩ [] [] 0
      (fun _ => "s1")).2.1 rfl,
   (create_node_result_shape ⟨"shell", "ray-demo", [], []⟩ [] [] 1
      (fun _ => "s1")).2.2.2.2 (by simp)⟩

/-- Counterexample to claim C1 as stated: refresh a cache with sessions
`a`, `b`, `c`, then run `terminate_nodes ["a", "b", "c"]` with the kill for
`b` failing.  The claim predicts that `a` and `c` are removed while `b`
remains; the code instead aborts at `b`: the error for `b` is propagated,
`a` is removed, but `c` is never attempted and is still in the cache. -/
theorem terminate_nodes_counterexample :
    (VeldaNodeProvider.terminate_nodes
        ((VeldaNodeProvider.init ⟨none⟩ "demo").non_terminated_nodes
          (some [⟨"a", [(TAG_RAY_NODE_KIND, "worker")], none⟩,
                 ⟨"b", [(TAG_RAY_NODE_KIND, "worker")], none⟩,
                 ⟨"c", [(TAG_RAY_NODE_KIND, "worker")], none⟩]) []).1
        (fun id => id != "b") ["a", "b", "c"]).2 = some "b" ∧
      (VeldaNodeProvider.terminate_nodes
        ((VeldaNodeProvider.init ⟨none⟩ "demo").non_terminated_nodes
          (some [⟨"a", [(TAG_RAY_NODE_KIND, "worker")], none⟩,
                 ⟨"b", [(TAG_RAY_NODE_KIND, "worker")], none⟩,
                 ⟨"c", [(TAG_RAY_NODE_KIND, "worker")], none⟩]) []).1
        (fun id => id != "b") ["a", "b", "c"]).1.nodes.lookup "a" = none ∧
      (VeldaNodeProvider.terminate_nodes
        ((VeldaNodeProvider.init ⟨none⟩ "demo").non_terminated_nodes
          (some [⟨"a", [(TAG_RAY_NODE_KIND, "worker")], none⟩,
                 ⟨"b", [(TAG_RAY_NODE_KIND, "worker")], none⟩,
                 ⟨"c", [(TAG_RAY_NODE_KIND, "worker")], none⟩]) []).1
        (fun id => id != "b") ["a", "b", "c"]).1.nodes.lookup "b" =
        some ⟨"b", [(TAG_RAY_NODE_KIND, "worker")], none⟩ ∧
      (VeldaNodeProvider.terminate_nodes
        ((VeldaNodeProvider.init ⟨none⟩ "demo").non_terminated_nodes
          (some [⟨"a", [(TAG_RAY_NODE_KIND, "worker")], none⟩,
                 ⟨"b", [(TAG_RAY_NODE_KIND, "worker")], none⟩,
                 ⟨"c", [(TAG_RAY_NODE_KIND, "worker")], none⟩]) []).1
        (fun id => id != "b") ["a", "b", "c"]).1.nodes.lookup "c" =
        some ⟨"c", [(TAG_RAY_NODE_KIND, "worker")], none⟩ := by
  decide

/-- Witness for claim C1 (amended) at a concrete cache holding `a`, `b`, `c`
with the kill for `b` failing: `a` is popped, the error is `b`. -/
theorem terminate_nodes_ok_then_fail_witness :
    VeldaNodeProvider.terminate_nodes
        (⟨"shell", "ray-demo",
          [("a", ⟨"a", [(TAG_RAY_NODE_KIND, "worker")], none⟩),
           ("b", ⟨"b", [(TAG_RAY_NODE_KIND, "worker")], none⟩),
           ("c", ⟨"c", [(TAG_RAY_NODE_KIND, "worker")], none⟩)], []⟩ : VeldaNodeProvider)
        (fun id => id != "b") (["a"] ++ "b" :: ["c"]) =
      (["a"].foldl (fun q id => { q with nodes := dictPop q.nodes id })
        (⟨"shell", "ray-demo",
          [("a", ⟨"a", [(TAG_RAY_NODE_KIND, "worker")], none⟩),
           ("b", ⟨"b", [(TAG_RAY_NODE_KIND, "worker")], none⟩),
           ("c", ⟨"c", [(TAG_RAY_NODE_KIND, "worker")], none⟩)], []⟩ : VeldaNodeProvider),
       some "b") :=
  terminate_nodes_ok_then_fail ["a"]
    (⟨"shell", "ray-demo",
      [("a", ⟨"a", [(TAG_RAY_NODE_KIND, "worker")], none⟩),
       ("b", ⟨"b", [(TAG_RAY_NODE_KIND, "worker")], none⟩),
       ("c", ⟨"c", [(TAG_RAY_NODE_KIND, "worker")], none⟩)], []⟩ : VeldaNodeProvider)
    (fun id => id != "b") "b" ["c"] (by decide) (by decide)

/-- Claim C2 (amended): after any refresh, every reverse-index entry maps to
an identifier present in the rebuilt primary mapping, and — when the
listing's session identifiers are pairwise distinct — the record stored for
that identifier carries exactly the indexed address.  `terminate_node`,
however, never touches the reverse-address index (it removes the identifier
only from the primary mapping), so the consistency claim does not extend to
termination. -/
theorem refresh_reverse_index_consistent (p : VeldaNodeProvider) (sessions : List Session)
    (tag_filters : List (String × String)) (a i : String) :
    ((p.non_terminated_nodes (some sessions) tag_filters).1.internal_ip_cache.lookup a =
          some i →
        ((p.non_terminated_nodes (some sessions) tag_filters).1.nodes.lookup i).isSome) ∧
      ((sessions.map Session.session_id).Nodup →
        (p.non_terminated_nodes (some sessions) tag_filters).1.internal_ip_cache.lookup a =
          some i →
        ∃ n, (p.non_terminated_nodes (some sessions) tag_filters).1.nodes.lookup i = some n ∧
          n.internal_ip_address = some a) ∧
      (∀ (q : VeldaNodeProvider) (killOk : Bool) (node_id : String),
        (q.terminate_node killOk node_id).1.internal_ip_cache = q.internal_ip_cache) := by
  have e1 : (p.non_terminated_nodes (some sessions) tag_filters).1.nodes =
      (refreshMaps sessions).1 := rfl
  have e2 : (p.non_terminated_nodes (some sessions) tag_filters).1.internal_ip_cache =
      (refreshMaps sessions).2 := rfl
  refine ⟨?_, ?_, ?_⟩
  · intro h
    rw [e2, refreshMaps_ic_lookup] at h
    rcases Option.map_eq_some'.mp h with ⟨n, hfind, hsid⟩
    have hmem := List.mem_of_find?_eq_some hfind
    have hpred := List.find?_some hfind
    have hk : dictContains n.tags TAG_RAY_NODE_KIND = true := by
      rw [icPred] at hpred
      exact (Bool.and_eq_true .. ▸ hpred).1
    rw [e1, refreshMaps_nm_lookup]
    exact List.find?_isSome.mpr ⟨n, hmem, by simp [nmPred, hsid, hk]⟩
  · intro hnd h
    rw [e2, refreshMaps_ic_lookup] at h
    rcases Option.map_eq_some'.mp h with ⟨n, hfind, hsid⟩
    have hmem := List.mem_of_find?_eq_some hfind
    have hpred := List.find?_some hfind
    have hk : dictContains n.tags TAG_RAY_NODE_KIND = true := by
      rw [icPred] at hpred
      exact (Bool.and_eq_true .. ▸ hpred).1
    have hip : n.internal_ip_address = some a := by
      rcases hx : n.internal_ip_address with _ | ip
      · rw [icPred, hx] at hpred
        simp at hpred
      · rw [icPred, hx] at hpred
        have := (Bool.and_eq_true .. ▸ hpred).2
        have h2 := (Bool.and_eq_true .. ▸ this).2
        exact congrArg some (beq_iff_eq.mp h2)
    have hnd' : (sessions.reverse.map Session.session_id).Nodup := by
      rw [List.map_reverse]
      exact List.nodup_reverse.mpr hnd
    have hsome : (sessions.reverse.find? (nmPred i)).isSome :=
      List.find?_isSome.mpr ⟨n, hmem, by simp [nmPred, hsid, hk]⟩
    rcases Option.isSome_iff_exists.mp hsome with ⟨q, hq⟩
    have hqmem := List.mem_of_find?_eq_some hq
    have hqpred := List.find?_some hq
    have hqsid : q.session_id = i := by
      rw [nmPred] at hqpred
      exact beq_iff_eq.mp (Bool.and_eq_true .. ▸ hqpred).1
    have hqn : q = n := List.inj_on_of_nodup_map hnd' hqmem hmem (by rw [hqsid, hsid])
    subst hqn
    rw [e1, refreshMaps_nm_lookup]
    exact ⟨q, hq, hip⟩
  · intro q killOk node_id
    exact terminate_node_ip_cache q killOk node_id

/-- Counterexample to claim C2 as stated: refresh a cache from a listing with
one session `a` at address `10.0.0.1`, then terminate `a` (kill succeeding).
The reverse index still maps `10.0.0.1` to `a`, but `a` is no longer a key of
the primary mapping — the consistency invariant is broken by
`terminate_node`. -/
theorem terminate_node_stale_reverse_index_counterexample :
    ((((VeldaNodeProvider.init ⟨none⟩ "demo").non_terminated_nodes
          (some [⟨"a", [(TAG_RAY_NODE_KIND, "worker")], some "10.0.0.1"⟩])
          []).1.terminate_node true "a").1.internal_ip_cache.lookup "10.0.0.1" = some "a") ∧
      ((((VeldaNodeProvider.init ⟨none⟩ "demo").non_terminated_nodes
          (some [⟨"a", [(TAG_RAY_NODE_KIND, "worker")], some "10.0.0.1"⟩])
          []).1.terminate_node true "a").1.nodes.lookup "a" = none) := by
  decide

/-- Witness for claim C2 (amended): after refreshing from a one-session
listing, the reverse-index entry for `10.0.0.1` leads to a primary-mapping
record carrying exactly that address. -/
theorem refresh_reverse_index_consistent_witness :
    ∃ n, (((VeldaNodeProvider.init ⟨none⟩ "demo").non_terminated_nodes
          (some [⟨"a", [(TAG_RAY_NODE_KIND, "worker")], some "10.0.0.1"⟩])
          []).1.nodes.lookup "a") = some n ∧ n.internal_ip_address = some "10.0.0.1" :=
  (refresh_reverse_index_consistent (VeldaNodeProvider.init ⟨none⟩ "demo")
      [⟨"a", [(TAG_RAY_NODE_KIND, "worker")], some "10.0.0.1"⟩] [] "10.0.0.1" "a").2.1
    (by decide) (by decide)

/-- Claim C3: for a listing with pairwise-distinct session identifiers (the
scheduler's identifiers are globally unique) and any tag filter,
`non_terminated_nodes` returns `s` iff the listing has an entry for `s` that
carries the node-kind tag and whose tags contain every filter key with
exactly the requested value; sessions lacking the node-kind tag are excluded
entirely, and the empty filter (for which `List.all` is trivially true)
matches every session carrying the node-kind tag. -/
theorem non_terminated_nodes_filter_iff (p : VeldaNodeProvider) (sessions : List Session)
    (tag_filters : List (String × String)) (s : String)
    (hids : (sessions.map Session.session_id).Nodup) :
    (p.non_terminated_nodes (some sessions) tag_filters).2 =
        Except.ok (matchingOf (refreshMaps sessions).1 tag_filters) ∧
      (s ∈ matchingOf (refreshMaps sessions).1 tag_filters ↔
        ∃ n ∈ sessions, n.session_id = s ∧ dictContains n.tags TAG_RAY_NODE_KIND = true ∧
          tag_filters.all (fun kv => n.tags.lookup kv.1 == some kv.2) = true) := by
  refine ⟨rfl, ?_, ?_⟩
  · intro hs
    rw [matchingOf] at hs
    rcases List.mem_map.mp hs with ⟨q, hq, hqs⟩
    rcases List.mem_filter.mp hq with ⟨hqnm, hqP⟩
    have hlook : (refreshMaps sessions).1.lookup q.1 = some q.2 :=
      lookup_of_mem_nodup _ _ _ (refreshMaps_nm_nodupKeys sessions) hqnm
    rw [refreshMaps_nm_lookup] at hlook
    have hmem : q.2 ∈ sessions := List.mem_reverse.mp (List.mem_of_find?_eq_some hlook)
    have hpred := List.find?_some hlook
    have hsid : q.2.session_id = q.1 := by
      rw [nmPred] at hpred
      exact beq_iff_eq.mp (Bool.and_eq_true .. ▸ hpred).1
    have hk : dictContains q.2.tags TAG_RAY_NODE_KIND = true := by
      rw [nmPred] at hpred
      exact (Bool.and_eq_true .. ▸ hpred).2
    exact ⟨q.2, hmem, by rw [hsid, hqs], hk, hqP⟩
  · rintro ⟨n, hn, hsid, hk, hall⟩
    have hnd' : (sessions.reverse.map Session.session_id).Nodup := by
      rw [List.map_reverse]
      exact List.nodup_reverse.mpr hids
    have hsome : (sessions.reverse.find? (nmPred s)).isSome :=
      List.find?_isSome.mpr ⟨n, List.mem_reverse.mpr hn, by simp [nmPred, hsid, hk]⟩
    rcases Option.isSome_iff_exists.mp hsome with ⟨q, hq⟩
    have hqmem := List.mem_of_find?_eq_some hq
    have hqpred := List.find?_some hq
    have hqsid : q.session_id = s := by
      rw [nmPred] at hqpred
      exact beq_iff_eq.mp (Bool.and_eq_true .. ▸ hqpred).1
    have hqn : q = n :=
      List.inj_on_of_nodup_map hnd' hqmem (List.mem_reverse.mpr hn) (by rw [hqsid, hsid])
    subst hqn
    have hlook : (refreshMaps sessions).1.lookup s = some q := by
      rw [refreshMaps_nm_lookup, hq]
    have hmm : (s, q) ∈ (refreshMaps sessions).1 := mem_of_lookup_eq_some _ _ _ hlook
    rw [matchingOf]
    exact List.mem_map.mpr ⟨(s, q), List.mem_filter.mpr ⟨hmm, hall⟩, rfl⟩

/-- Witness for claim C3: a two-session listing where only session `a`
carries the node-kind tag; with the empty filter, `a` is returned. -/
theorem non_terminated_nodes_filter_iff_witness :
    ((VeldaNodeProvider.init ⟨none⟩ "demo").non_terminated_nodes
        (some [⟨"a", [(TAG_RAY_NODE_KIND, "worker")], none⟩, ⟨"b", [], none⟩]) []).2 =
        Except.ok (matchingOf
          (refreshMaps [⟨"a", [(TAG_RAY_NODE_KIND, "worker")], none⟩, ⟨"b", [], none⟩]).1
          []) ∧
      ("a" ∈ matchingOf
          (refreshMaps [⟨"a", [(TAG_RAY_NODE_KIND, "worker")], none⟩, ⟨"b", [], none⟩]).1
          [] ↔
        ∃ n ∈ [(⟨"a", [(TAG_RAY_NODE_KIND, "worker")], none⟩ : Session), ⟨"b", [], none⟩],
          n.session_id = "a" ∧ dictContains n.tags TAG_RAY_NODE_KIND = true ∧
            List.all ([] : List (String × String))
              (fun kv => n.tags.lookup kv.1 == some kv.2) = true) :=
  non_terminated_nodes_filter_iff (VeldaNodeProvider.init ⟨none⟩ "demo")
    [⟨"a", [(TAG_RAY_NODE_KIND, "worker")], none⟩, ⟨"b", [], none⟩] [] "a" (by decide)

/-- Claim C9: the identifier list returned by a successful refresh never
contains duplicates, even when the listing repeats a session identifier: the
listing is collapsed into a mapping keyed by identifier before filtering, a
later entry replacing an earlier one (the record looked up for `s` is the
last listing entry that carries `s` and the node-kind tag). -/
theorem non_terminated_nodes_nodup (p : VeldaNodeProvider) (sessions : List Session)
    (tag_filters : List (String × String)) :
    (∃ l, (p.non_terminated_nodes (some sessions) tag_filters).2 = Except.ok l ∧
        l.Nodup) ∧
      ∀ s, (refreshMaps sessions).1.lookup s = sessions.reverse.find? (nmPred s) := by
  refine ⟨⟨matchingOf (refreshMaps sessions).1 tag_filters, rfl, ?_⟩,
    fun s => refreshMaps_nm_lookup sessions s⟩
  have hsub : List.Sublist
      (((refreshMaps sessions).1.filter
        (fun q => tag_filters.all (fun kv => q.2.tags.lookup kv.1 == some kv.2))).map
          Prod.fst)
      ((refreshMaps sessions).1.map Prod.fst) :=
    List.Sublist.map Prod.fst (List.filter_sublist _)
  exact (refreshMaps_nm_nodupKeys sessions).sublist hsub
